import Mathlib

/-!
Shallow embedding of the student-management backend (`src/Backend/server.js`).

The store (MongoDB collections `Student` and `Course`) is modelled as two
lists kept in insertion order.  Document ids and timestamps are explicit
parameters; `createdAt` is a natural-number timestamp.  Each Express route
handler is modelled as a pure function from the store (plus the request
data) to an HTTP status code, a response body, and the resulting store.
-/

namespace SMA

/-- Schema enum for the `status` field of both collections
(`server.js` lines 108-112 and 140-144): the only allowed values are
"active" and "inactive", with default "active". -/
inductive Status where
  | active
  | inactive
  deriving DecidableEq

/-- A persisted `Student` document (`studentSchema`, `server.js` lines 89-117,
with `timestamps: true` adding `createdAt`). -/
structure StudentRec where
  id : String
  name : String
  email : String
  course : String
  enrollmentDate : Nat
  status : Status
  createdAt : Nat
  deriving DecidableEq

/-- A persisted `Course` document (`courseSchema`, `server.js` lines 125-149). -/
structure CourseRec where
  id : String
  name : String
  description : String
  duration : Nat
  status : Status
  createdAt : Nat
  deriving DecidableEq

/-- The document store: the `Student` and `Course` collections, each a list
in insertion order. -/
structure Store where
  students : List StudentRec
  courses : List CourseRec
  deriving DecidableEq

/-- Lookup of a string-valued field of a persisted student document by field
name.  The persisted fields are exactly those of `studentSchema`
(Mongoose strict mode discards any other key of the request body); a name
that is not a schema field is absent from every document, giving `none`. -/
def studentField (s : StudentRec) : String → Option String
  | "_id" => some s.id
  | "name" => some s.name
  | "email" => some s.email
  | "course" => some s.course
  | _ => none

/-- Model of `Student.countDocuments({f: v})` for a string-valued query:
a document matches when the field `f` is present and equal to `v`
(a document missing the field does not match a non-null value). -/
def countStudentsByField (l : List StudentRec) (f v : String) : Nat :=
  (l.filter fun s => studentField s f == some v).length

/-- Model of `Math.round(num / den)` for natural `num`, `den` with `den > 0`,
taking the quotient as an exact rational: `Math.round x = ⌊x + 1/2⌋`
on nonnegative inputs (halves round up). -/
def mathRound (num den : Nat) : Nat :=
  (2 * num + den) / (2 * den)

/-- Model of the aggregation
`Student.aggregate([{$group: {_id: "$course", count: {$sum: 1}}}])`
(`server.js` lines 364-366): one `(key, count)` pair per distinct value of
the `course` field, the count being the number of students carrying it. -/
def courseCoutsOf (students : List StudentRec) : List (String × Nat) :=
  ((students.map fun s => s.course).dedup).map
    fun c => (c, (students.map fun s => s.course).count c)

/-- The snapshot object built by `getDashboardStats` (`server.js` lines
368-377).  The field `courseCouts` keeps the source's spelling. -/
structure DashboardStats where
  totalStudents : Nat
  activeStudents : Nat
  totalCourses : Nat
  activeCourses : Nat
  graduates : Nat
  courseCouts : List (String × Nat)
  successRate : Nat
  deriving DecidableEq

/-- Translation of the helper `getDashboardStats()` (`server.js` lines
358-378).  `successRate` is
`totalStudents > 0 ? Math.round((graduates / totalStudents) * 100) : 0`,
with `Math.round` on the exact rational modelled by `mathRound`. -/
def getDashboardStats (db : Store) : DashboardStats :=
  { totalStudents := db.students.length
    activeStudents := (db.students.filter fun s => s.status == Status.active).length
    totalCourses := db.courses.length
    activeCourses := (db.courses.filter fun c => c.status == Status.active).length
    graduates := (db.students.filter fun s => s.status == Status.inactive).length
    courseCouts := courseCoutsOf db.students
    successRate :=
      if 0 < db.students.length then
        mathRound ((db.students.filter fun s => s.status == Status.inactive).length * 100)
          db.students.length
      else 0 }

/-- Translation of `GET /api/dashboard/stats` (`server.js` lines 346-355).
`storeOk` abstracts whether the store reads succeed.  In the source's `try`
branch, after `getDashboardStats()` resolves, the handler executes
`res.status(500).json({ message: error.message })` — `error` is an
undefined identifier there, so the success path itself sends status 500
(and the thrown ReferenceError lands in the `catch`, which also sends
500).  The stats object is never serialized into a response. -/
def dashboardStatsEndpoint (db : Store) (storeOk : Bool) : Nat × Option DashboardStats :=
  if storeOk then
    let _stats := getDashboardStats db
    (500, none)
  else
    (500, none)

/-- Translation of `DELETE /api/courses/:id` (`server.js` lines 208-238).
The guard counts `Student.countDocuments({ courseId: req.params.id })` —
the field name in the query is `courseId`, not the schema field `course`.
Returns `(status, message)` and the resulting store. -/
def deleteCourseEndpoint (db : Store) (id : String) : (Nat × String) × Store :=
  let enrolledStudents := countStudentsByField db.students "courseId" id
  if 0 < enrolledStudents then
    ((400, "Course deleted successfully with enrollment students"), db)
  else
    match db.courses.find? fun c => c.id == id with
    | none => ((404, "Course not found"), db)
    | some _ =>
      ((200, "Course deleted successfully"),
        { db with courses := db.courses.filter fun c => !(c.id == id) })

/-- A `PUT /api/students/:id` request body: each schema field optionally
present.  `findByIdAndUpdate` applies the body as a `$set`, so absent
fields are left untouched. -/
structure StudentInput where
  name : Option String := none
  email : Option String := none
  course : Option String := none
  enrollmentDate : Option Nat := none
  status : Option Status := none
  deriving DecidableEq

/-- Merge of an update body into a stored document (the `$set` semantics of
`findByIdAndUpdate(req.params.id, req.body, { new: true })`). -/
def applyUpdate (s : StudentRec) (u : StudentInput) : StudentRec :=
  { s with
    name := u.name.getD s.name
    email := u.email.getD s.email
    course := u.course.getD s.course
    enrollmentDate := u.enrollmentDate.getD s.enrollmentDate
    status := u.status.getD s.status }

/-- Translation of `PUT /api/students/:id` (`server.js` lines 274-295):
404 when no student has the id, otherwise merge and return the updated
record (`new: true`). -/
def updateStudentEndpoint (db : Store) (id : String) (u : StudentInput) :
    (Nat × Option StudentRec) × Store :=
  match db.students.find? fun s => s.id == id with
  | none => ((404, none), db)
  | some s =>
    ((200, some (applyUpdate s u)),
      { db with students := db.students.map fun t => if t.id == id then applyUpdate t u else t })

/-- A `POST /api/students` request body. -/
structure CreateStudentInput where
  name : Option String := none
  email : Option String := none
  course : Option String := none
  enrollmentDate : Option Nat := none
  status : Option Status := none
  deriving DecidableEq

/-- Translation of `POST /api/students` (`server.js` lines 257-271):
`new Student(req.body).save()` fails (caught and surfaced as 400) when a
required field is missing or when the unique index on `email` already
holds the given address; otherwise the document is persisted with
`status` defaulting to "active".  `newId` and `now` stand for the
store-generated id and `createdAt` timestamp. -/
def createStudentEndpoint (db : Store) (inp : CreateStudentInput) (newId : String) (now : Nat) :
    (Nat × Option StudentRec) × Store :=
  match inp.name, inp.email, inp.course, inp.enrollmentDate with
  | some n, some e, some c, some d =>
    if db.students.any fun s => s.email == e then
      ((400, none), db)
    else
      let s : StudentRec :=
        { id := newId, name := n, email := e, course := c, enrollmentDate := d,
          status := inp.status.getD Status.active, createdAt := now }
      ((201, some s), { db with students := db.students ++ [s] })
  | _, _, _, _ => ((400, none), db)

/-- Sort key of `Student.find().sort({ createdAt: -1 })`: newest first. -/
def studentNewerFirst (a b : StudentRec) : Prop :=
  b.createdAt ≤ a.createdAt

instance : DecidableRel studentNewerFirst :=
  fun a b => Nat.decLe b.createdAt a.createdAt

instance : IsTotal StudentRec studentNewerFirst :=
  ⟨fun a b => (Nat.le_total b.createdAt a.createdAt)⟩

instance : IsTrans StudentRec studentNewerFirst :=
  ⟨fun _ _ _ h1 h2 => Nat.le_trans h2 h1⟩

/-- Sort key of `Course.find().sort({ name: 1 })`: ascending by name. -/
def courseNameLe (a b : CourseRec) : Prop :=
  a.name ≤ b.name

instance : DecidableRel courseNameLe :=
  fun a b => inferInstanceAs (Decidable (a.name ≤ b.name))

instance : IsTotal CourseRec courseNameLe :=
  ⟨fun a b => le_total a.name b.name⟩

instance : IsTrans CourseRec courseNameLe :=
  ⟨fun _ _ _ h1 h2 => le_trans h1 h2⟩

/-- Translation of `GET /api/students` (`server.js` lines 243-251):
all students sorted by `createdAt` descending; a stable sort keeps ties
in insertion order. -/
def listStudentsEndpoint (db : Store) : List StudentRec :=
  List.insertionSort studentNewerFirst db.students

/-- Translation of `GET /api/courses` (`server.js` lines 159-168):
all courses sorted by `name` ascending. -/
def listCoursesEndpoint (db : Store) : List CourseRec :=
  List.insertionSort courseNameLe db.courses

/-- Token of the regular-expression fragment exercised by the search
endpoint: a literal character or the `.` wildcard of ECMAScript regex
syntax. -/
inductive RTok where
  | lit (c : Char)
  | dot
  deriving DecidableEq

/-- Reading of the raw search term as a regex pattern (the handler passes
it to `$regex` unescaped), for terms made of literal characters and `.`. -/
def rtoksOf (s : String) : List RTok :=
  s.data.map fun c => if c = '.' then RTok.dot else RTok.lit c

/-- Case-insensitive character comparison (the `$options: "i"` flag). -/
def charEqCI (a b : Char) : Bool :=
  a.toLower == b.toLower

/-- Single-token match against a character. -/
def rtokMatches : RTok → Char → Bool
  | RTok.dot, _ => true
  | RTok.lit l, c => charEqCI l c

/-- Match of a whole pattern against a text position (must consume the
pattern, may leave text). -/
def rMatchAt : List RTok → List Char → Bool
  | [], _ => true
  | _ :: _, [] => false
  | t :: ts, c :: cs => rtokMatches t c && rMatchAt ts cs

/-- Unanchored regex search: the pattern matches at some position. -/
def rSearch (p : List RTok) : List Char → Bool
  | [] => rMatchAt p []
  | c :: cs => rMatchAt p (c :: cs) || rSearch p cs

/-- Model of `{ $regex: term, $options: "i" }` applied to a string field. -/
def regexTest (term s : String) : Bool :=
  rSearch (rtoksOf term) s.data

/-- Translation of `GET /api/student/search` (`server.js` lines 319-340):
students whose `name`, `email` or `course` matches the term as a
case-insensitive regex (`$or` of three `$regex` clauses), in store order. -/
def searchStudentsEndpoint (db : Store) (term : String) : List StudentRec :=
  db.students.filter fun s =>
    regexTest term s.name || regexTest term s.email || regexTest term s.course

/-- Characters that are syntax characters of ECMAScript regular
expressions (a term avoiding all of them is matched purely literally). -/
def isRegexSpecial (c : Char) : Bool :=
  c == '.' || c == '*' || c == '+' || c == '?' || c == '^' || c == '$' ||
  c == '(' || c == ')' || c == '[' || c == ']' || c == '\x7b' || c == '\x7d' ||
  c == '|' || c == '\\'

/-- Spec-side helper: case-insensitive starts-with test on character lists. -/
def startsWithCI : List Char → List Char → Bool
  | [], _ => true
  | _ :: _, [] => false
  | a :: as, b :: bs => charEqCI a b && startsWithCI as bs

/-- Spec-side helper: case-insensitive containment test on character lists. -/
def containsCI (p : List Char) : List Char → Bool
  | [] => startsWithCI p []
  | c :: cs => startsWithCI p (c :: cs) || containsCI p cs

/-- Modelled from the spec ("`term` (case-insensitive) is a substring of
name, email, or course field"): the case-insensitive substring test the
specification describes, used to compare against the implementation's
regex-based search. -/
def isSubstringCI (pat s : String) : Bool :=
  containsCI pat.data s.data

/-! ### Concrete sample data used by witnesses and counterexamples -/

/-- Shorthand for building a student record. -/
def mkStudent (id nm em co : String) (st : Status) (ca : Nat) : StudentRec :=
  { id := id, name := nm, email := em, course := co,
    enrollmentDate := 0, status := st, createdAt := ca }

/-- A sample course. -/
def mathCourse : CourseRec :=
  { id := "c1", name := "Math", description := "Basic math", duration := 4,
    status := Status.active, createdAt := 0 }

/-- A sample student enrolled in `mathCourse` (the UI stores the selected
course's `_id` in the student's `course` field). -/
def annStudent : StudentRec := mkStudent "s1" "Ann" "ann@example.com" "c1" Status.active 1

/-- Store with one course and one student enrolled in it. -/
def dbC2 : Store := { students := [annStudent], courses := [mathCourse] }

/-- Store with three students, one of them inactive. -/
def dbStats : Store :=
  { students :=
      [ mkStudent "s1" "Ann" "ann@example.com" "Math" Status.active 1
      , mkStudent "s2" "Ben" "ben@example.com" "Math" Status.active 2
      , mkStudent "s3" "Cid" "cid@example.com" "Art" Status.inactive 3 ]
  , courses := [] }

/-- A student whose three searchable fields contain no dot. -/
def abcStudent : StudentRec := mkStudent "s7" "abc" "x@y" "cs" Status.active 0

/-- Store holding only `abcStudent`. -/
def dbDot : Store := { students := [abcStudent], courses := [] }

/-- Sample students for the search witness. -/
def aliceStudent : StudentRec :=
  mkStudent "s2" "Alice" "alice@example.com" "Algorithms" Status.active 2

/-- A second sample student, not matching the term "ali" anywhere. -/
def bobStudent : StudentRec := mkStudent "s3" "Bob" "bob@example.com" "Biology" Status.active 3

/-- Store for the search witness. -/
def dbSearch : Store := { students := [aliceStudent, bobStudent], courses := [] }

/-- The partial update body `{status: "inactive"}`. -/
def statusInactiveInput : StudentInput := { status := some Status.inactive }

/-- A create request reusing `annStudent`'s email address. -/
def dupInput : CreateStudentInput :=
  { name := some "Bob", email := some "ann@example.com",
    course := some "c1", enrollmentDate := some 3 }

/-! ### Claim theorems -/

/-- C1: the spec requires `GET /dashboard/stats` to answer 200 with the
snapshot whenever the store reads succeed.  The code cannot: its success
path executes `res.status(500).json({ message: error.message })` with
`error` undefined, so every request — store failure or not — is answered
500 and the computed snapshot is never sent. -/
theorem c1_dashboard_endpoint_always_500 (db : Store) (storeOk : Bool) :
    (dashboardStatsEndpoint db storeOk).1 = 500
  ∧ (dashboardStatsEndpoint db storeOk).2 = none := by
  cases storeOk <;> exact ⟨rfl, rfl⟩

/-- C2: the delete-course guard counts students by a `courseId` field that
no student document has (the schema field is `course`), so the count is 0
for every store and every id, the ConflictError branch is unreachable, and
a course with an enrolled student is deleted with status 200. -/
theorem c2_delete_course_guard_dead :
    (∀ (db : Store) (id : String), countStudentsByField db.students "courseId" id = 0)
  ∧ 0 < (dbC2.students.filter fun s => s.course == "c1").length
  ∧ (deleteCourseEndpoint dbC2 "c1").1.1 = 200
  ∧ (deleteCourseEndpoint dbC2 "c1").2.courses = [] := by
  refine ⟨?_, by decide, by decide, by decide⟩
  intro db id
  have hnone : ∀ s : StudentRec, (studentField s "courseId" == some id) = false := fun s => rfl
  simp [countStudentsByField, hnone]

/-- Helper: the active and inactive students partition the collection:
the schema enum admits no third status value. -/
theorem length_filter_active_add_inactive (l : List StudentRec) :
    (l.filter fun s => s.status == Status.active).length
      + (l.filter fun s => s.status == Status.inactive).length = l.length := by
  induction l with
  | nil => rfl
  | cons a l ih =>
    cases ha : a.status <;> simp [List.filter_cons, ha] <;> omega

/-- C8: `totalStudents = activeStudents + graduates` in every snapshot,
because each student's status is exactly one of "active" or "inactive". -/
theorem c8_status_partition (db : Store) :
    (getDashboardStats db).totalStudents
      = (getDashboardStats db).activeStudents + (getDashboardStats db).graduates := by
  have h := length_filter_active_add_inactive db.students
  have ht : (getDashboardStats db).totalStudents = db.students.length := rfl
  have ha : (getDashboardStats db).activeStudents
      = (db.students.filter fun s => s.status == Status.active).length := rfl
  have hg : (getDashboardStats db).graduates
      = (db.students.filter fun s => s.status == Status.inactive).length := rfl
  omega

/-- Helper: an upper bound for the half-up rounding of `num / den`. -/
theorem mathRound_le_of_le (num den B : Nat) (hden : 0 < den) (h : num ≤ B * den) :
    mathRound num den ≤ B := by
  have hk : 0 < 2 * den := by omega
  have hm : 2 * num ≤ 2 * (B * den) := Nat.mul_le_mul_left 2 h
  have heq : (B + 1) * (2 * den) = 2 * (B * den) + 2 * den := by ring
  have hlt : 2 * num + den < (B + 1) * (2 * den) := by omega
  have hdiv := (Nat.div_lt_iff_lt_mul hk).mpr hlt
  unfold mathRound
  omega

/-- C9: the success rate is a percentage: between 0 and 100 inclusive,
since graduates never exceed the total student count and the empty store
is mapped to 0. -/
theorem c9_success_rate_bounds (db : Store) :
    (getDashboardStats db).graduates ≤ (getDashboardStats db).totalStudents
  ∧ 0 ≤ (getDashboardStats db).successRate
  ∧ (getDashboardStats db).successRate ≤ 100 := by
  refine ⟨List.length_filter_le _ _, Nat.zero_le _, ?_⟩
  have hsr : (getDashboardStats db).successRate
      = if 0 < db.students.length then
          mathRound ((db.students.filter fun s => s.status == Status.inactive).length * 100)
            db.students.length
        else 0 := rfl
  rw [hsr]
  by_cases hpos : 0 < db.students.length
  · rw [if_pos hpos]
    apply mathRound_le_of_le _ _ _ hpos
    calc (db.students.filter fun s => s.status == Status.inactive).length * 100
        ≤ db.students.length * 100 :=
          Nat.mul_le_mul_right 100 (List.length_filter_le _ _)
      _ = 100 * db.students.length := Nat.mul_comm _ _
  · rw [if_neg hpos]
    omega

/-- C10: the per-course breakdown partitions the student collection: its
keys are pairwise distinct, its counts sum to the total student count, and
each entry's count is the number of students carrying that course value. -/
theorem c10_course_counts_partition (db : Store) :
    ((getDashboardStats db).courseCouts.map Prod.fst).Nodup
  ∧ ((getDashboardStats db).courseCouts.map Prod.snd).sum
      = (getDashboardStats db).totalStudents
  ∧ ∀ p ∈ (getDashboardStats db).courseCouts,
      p.2 = (db.students.filter fun s => s.course == p.1).length := by
  have hcc : (getDashboardStats db).courseCouts = courseCoutsOf db.students := rfl
  have ht : (getDashboardStats db).totalStudents = db.students.length := rfl
  rw [hcc, ht]
  unfold courseCoutsOf
  refine ⟨?_, ?_, ?_⟩
  · rw [List.map_map]
    have : (Prod.fst ∘ fun c =>
        (c, (db.students.map fun s => s.course).count c)) = fun c => c := rfl
    rw [this, List.map_id']
    exact List.nodup_dedup _
  · rw [List.map_map]
    have : (Prod.snd ∘ fun c => (c, (db.students.map fun s => s.course).count c))
        = fun c => (db.students.map fun s => s.course).count c := rfl
    rw [this, List.sum_map_count_dedup_eq_length, List.length_map]
  · intro p hp
    obtain ⟨c, _, hpc⟩ := List.mem_map.mp hp
    subst hpc
    show (db.students.map fun s => s.course).count c = _
    rw [List.count_eq_countP, List.countP_map, List.countP_eq_length_filter]
    rfl

/-- C5: updating a student found in the store with only
`{status: "inactive"}` returns the stored record with just the status
changed; in general any field absent from the update body keeps its prior
value in the returned record. -/
theorem c5_update_partial_frame (db : Store) (id : String) (s : StudentRec)
    (h : db.students.find? (fun t => t.id == id) = some s) :
    ((updateStudentEndpoint db id statusInactiveInput).1.1 = 200
      ∧ (updateStudentEndpoint db id statusInactiveInput).1.2
          = some { s with status := Status.inactive })
  ∧ ∀ (u : StudentInput) (r : StudentRec),
      (updateStudentEndpoint db id u).1.2 = some r →
        (u.name = none → r.name = s.name)
      ∧ (u.email = none → r.email = s.email)
      ∧ (u.course = none → r.course = s.course)
      ∧ (u.enrollmentDate = none → r.enrollmentDate = s.enrollmentDate)
      ∧ (u.status = none → r.status = s.status) := by
  constructor
  · constructor
    · simp only [updateStudentEndpoint, h]
    · simp only [updateStudentEndpoint, h, Option.some.injEq]
      simp [applyUpdate, statusInactiveInput]
  · intro u r hr
    simp only [updateStudentEndpoint, h, Option.some.injEq] at hr
    subst hr
    refine ⟨?_, ?_, ?_, ?_, ?_⟩ <;> intro hn <;> simp [applyUpdate, hn]

/-- Witness for C5 at a concrete store. -/
theorem c5_update_partial_frame_witness :
    dbStats.students.find? (fun t => t.id == "s1")
        = some (mkStudent "s1" "Ann" "ann@example.com" "Math" Status.active 1)
  ∧ (((updateStudentEndpoint dbStats "s1" statusInactiveInput).1.1 = 200
      ∧ (updateStudentEndpoint dbStats "s1" statusInactiveInput).1.2
          = some { mkStudent "s1" "Ann" "ann@example.com" "Math" Status.active 1 with
                    status := Status.inactive })
    ∧ ∀ (u : StudentInput) (r : StudentRec),
        (updateStudentEndpoint dbStats "s1" u).1.2 = some r →
          (u.name = none →
            r.name = (mkStudent "s1" "Ann" "ann@example.com" "Math" Status.active 1).name)
        ∧ (u.email = none →
            r.email = (mkStudent "s1" "Ann" "ann@example.com" "Math" Status.active 1).email)
        ∧ (u.course = none →
            r.course = (mkStudent "s1" "Ann" "ann@example.com" "Math" Status.active 1).course)
        ∧ (u.enrollmentDate = none →
            r.enrollmentDate
              = (mkStudent "s1" "Ann" "ann@example.com" "Math" Status.active 1).enrollmentDate)
        ∧ (u.status = none →
            r.status = (mkStudent "s1" "Ann" "ann@example.com" "Math" Status.active 1).status)) :=
  ⟨by decide,
    c5_update_partial_frame dbStats "s1"
      (mkStudent "s1" "Ann" "ann@example.com" "Math" Status.active 1) (by decide)⟩

/-- C6: creating a student whose email is already present fails with a 400
client error (the unique index on `email` rejects the save) and leaves the
store exactly as it was. -/
theorem c6_duplicate_email_rejected (db : Store) (inp : CreateStudentInput)
    (newId : String) (now : Nat) (e : String)
    (he : inp.email = some e)
    (hdup : ∃ s ∈ db.students, s.email = e) :
    (createStudentEndpoint db inp newId now).1.1 = 400
  ∧ (createStudentEndpoint db inp newId now).2 = db := by
  obtain ⟨s0, hs0, hse⟩ := hdup
  have hany : (db.students.any fun s => s.email == e) = true :=
    List.any_eq_true.mpr ⟨s0, hs0, by simp [hse]⟩
  rcases hn : inp.name with _ | n <;>
    rcases hc : inp.course with _ | c <;>
      rcases hd : inp.enrollmentDate with _ | d <;>
        simp [createStudentEndpoint, he, hn, hc, hd, hany]

/-- Witness for C6 at a concrete store. -/
theorem c6_duplicate_email_rejected_witness :
    dupInput.email = some "ann@example.com"
  ∧ (∃ s ∈ dbC2.students, s.email = "ann@example.com")
  ∧ ((createStudentEndpoint dbC2 dupInput "s9" 5).1.1 = 400
      ∧ (createStudentEndpoint dbC2 dupInput "s9" 5).2 = dbC2) :=
  ⟨rfl, ⟨annStudent, by decide, rfl⟩,
    c6_duplicate_email_rejected dbC2 dupInput "s9" 5 "ann@example.com" rfl
      ⟨annStudent, by decide, rfl⟩⟩

/-- Helper: inserting a student into a list leaves the sublist of any fixed
creation time unchanged, because every element the insertion skips over is
strictly newer than the inserted one. -/
theorem filter_createdAt_orderedInsert (t : Nat) (a : StudentRec) :
    ∀ l : List StudentRec,
      (List.orderedInsert studentNewerFirst a l).filter (fun s => s.createdAt == t)
        = (a :: l).filter (fun s => s.createdAt == t)
  | [] => rfl
  | b :: l => by
    have ih := filter_createdAt_orderedInsert t a l
    simp only [List.orderedInsert]
    by_cases hr : studentNewerFirst a b
    · rw [if_pos hr]
    · rw [if_neg hr]
      have hba : a.createdAt < b.createdAt := by
        unfold studentNewerFirst at hr
        omega
      by_cases hpa : a.createdAt = t
      · have hpa' : (a.createdAt == t) = true := by simp [hpa]
        have hpb' : (b.createdAt == t) = false := by
          simp only [beq_eq_false_iff_ne, ne_eq]
          omega
        simp only [List.filter_cons, ih, hpa', hpb', Bool.false_eq_true, reduceIte]
      · have hpa' : (a.createdAt == t) = false := by simp [hpa]
        simp only [List.filter_cons, ih, hpa', Bool.false_eq_true, reduceIte]

/-- Helper: the descending-by-`createdAt` insertion sort is stable — the
sublist of students sharing any fixed creation time is exactly the one of
the unsorted list, in the same (insertion) order. -/
theorem filter_createdAt_insertionSort (t : Nat) :
    ∀ l : List StudentRec,
      (List.insertionSort studentNewerFirst l).filter (fun s => s.createdAt == t)
        = l.filter (fun s => s.createdAt == t)
  | [] => rfl
  | a :: l => by
    have ih := filter_createdAt_insertionSort t l
    simp only [List.insertionSort, filter_createdAt_orderedInsert, List.filter_cons, ih]

/-- C7: `listStudents` returns all students (a permutation of the store),
sorted newest-first by `createdAt`, with students of equal creation time
kept in insertion order; `listCourses` returns all courses sorted
ascending by name. -/
theorem c7_list_ordering (db : Store) :
    (listStudentsEndpoint db).Perm db.students
  ∧ (listStudentsEndpoint db).Sorted studentNewerFirst
  ∧ (∀ t : Nat, (listStudentsEndpoint db).filter (fun s => s.createdAt == t)
        = db.students.filter (fun s => s.createdAt == t))
  ∧ (listCoursesEndpoint db).Perm db.courses
  ∧ (listCoursesEndpoint db).Sorted courseNameLe :=
  ⟨List.perm_insertionSort studentNewerFirst db.students,
   List.sorted_insertionSort studentNewerFirst db.students,
   fun t => filter_createdAt_insertionSort t db.students,
   List.perm_insertionSort courseNameLe db.courses,
   List.sorted_insertionSort courseNameLe db.courses⟩

/-- Helper: the half-up rounding of the exact rational `num / den` agrees
with Mathlib's `round` on ℚ. -/
theorem mathRound_eq_round (num den : Nat) (h : 0 < den) :
    (mathRound num den : ℤ) = round ((num : ℚ) / (den : ℚ)) := by
  have hden0 : ((den : ℚ)) ≠ 0 := Nat.cast_ne_zero.mpr h.ne'
  have hq : (num : ℚ) / (den : ℚ) + 1 / 2
      = ((2 * num + den : ℕ) : ℚ) / ((2 * den : ℕ) : ℚ) := by
    push_cast
    field_simp
    ring
  have hnn : (0 : ℚ) ≤ ((2 * num + den : ℕ) : ℚ) / ((2 * den : ℕ) : ℚ) :=
    div_nonneg (by positivity) (by positivity)
  rw [round_eq, hq, ← Int.natCast_floor_eq_floor hnn, Nat.floor_div_eq_div]
  rfl

/-- C3: when the store has students, the snapshot's `successRate` is the
half-up integer rounding of `graduates / totalStudents * 100` taken on the
exact rational (`Math.round x = ⌊x + 1/2⌋` on nonnegative input — the
implementation's rounding of a half is half-up); an empty store yields 0;
and `graduates` counts exactly the students with status "inactive". -/
theorem c3_success_rate_rounding (db : Store) :
    (getDashboardStats db).graduates
        = (db.students.filter fun s => s.status == Status.inactive).length
  ∧ ((getDashboardStats db).totalStudents = 0 → (getDashboardStats db).successRate = 0)
  ∧ (0 < (getDashboardStats db).totalStudents →
      ((getDashboardStats db).successRate : ℤ)
        = round (((getDashboardStats db).graduates : ℚ)
            / ((getDashboardStats db).totalStudents : ℚ) * 100)) := by
  have hg : (getDashboardStats db).graduates
      = (db.students.filter fun s => s.status == Status.inactive).length := rfl
  have ht : (getDashboardStats db).totalStudents = db.students.length := rfl
  have hsr : (getDashboardStats db).successRate
      = if 0 < db.students.length then
          mathRound ((db.students.filter fun s => s.status == Status.inactive).length * 100)
            db.students.length
        else 0 := rfl
  refine ⟨rfl, ?_, ?_⟩
  · intro h0
    rw [hsr, if_neg (by omega)]
  · intro hpos
    rw [ht] at hpos
    rw [hg, ht, hsr, if_pos hpos,
      mathRound_eq_round ((db.students.filter fun s => s.status == Status.inactive).length * 100)
        db.students.length hpos]
    congr 1
    push_cast
    ring

/-- Witness for C3 at a concrete store (3 students, 1 inactive: rate 33). -/
theorem c3_success_rate_rounding_witness :
    0 < (getDashboardStats dbStats).totalStudents
  ∧ ((getDashboardStats dbStats).successRate : ℤ)
      = round (((getDashboardStats dbStats).graduates : ℚ)
          / ((getDashboardStats dbStats).totalStudents : ℚ) * 100) :=
  ⟨by decide, (c3_success_rate_rounding dbStats).2.2 (by decide)⟩

/-- Helper: a pattern of literal tokens matches at a position exactly when
the term starts there, case-insensitively. -/
theorem rMatchAt_lit : ∀ (p s : List Char),
    rMatchAt (p.map RTok.lit) s = startsWithCI p s
  | [], _ => rfl
  | _ :: _, [] => rfl
  | a :: as, b :: bs => by
    simp only [List.map_cons, rMatchAt, rtokMatches, startsWithCI, rMatchAt_lit as bs]

/-- Helper: unanchored search with a literal-only pattern is exactly
case-insensitive substring containment. -/
theorem rSearch_lit (p : List Char) : ∀ s : List Char,
    rSearch (p.map RTok.lit) s = containsCI p s
  | [] => by simp only [rSearch, containsCI, rMatchAt_lit]
  | c :: cs => by simp only [rSearch, containsCI, rMatchAt_lit, rSearch_lit p cs]

/-- Helper: a term free of regex syntax characters tokenizes to literal
tokens only. -/
theorem rtoksOf_of_no_special (term : String)
    (h : term.data.all (fun c => !isRegexSpecial c) = true) :
    rtoksOf term = term.data.map RTok.lit := by
  unfold rtoksOf
  apply List.map_congr_left
  intro c hc
  have hcs := List.all_eq_true.mp h c hc
  have hfalse : isRegexSpecial c = false := by
    cases hb : isRegexSpecial c
    · rfl
    · rw [hb] at hcs
      exact absurd hcs (by decide)
  have hdot : ¬ (c = '.') := by
    intro hdd
    rw [hdd] at hfalse
    exact absurd hfalse (by decide)
  rw [if_neg hdot]

/-- Helper: the empty pattern matches everywhere. -/
theorem rSearch_nil : ∀ l : List Char, rSearch [] l = true
  | [] => rfl
  | _ :: _ => by simp only [rSearch, rMatchAt, Bool.true_or]

/-- C4 counterexample: the term `"."` is passed to the store as a regular
expression, where `.` matches any character: the student named "abc" — a
record none of whose searched fields contains a literal dot — is returned,
so the result is not the set of case-insensitive substring matches. -/
theorem c4_substring_claim_counterexample :
    abcStudent ∈ searchStudentsEndpoint dbDot "."
  ∧ (isSubstringCI "." abcStudent.name || isSubstringCI "." abcStudent.email
      || isSubstringCI "." abcStudent.course) = false := by
  decide

/-- C4 (amended): the term is interpreted as a case-insensitive unanchored
regular expression over name, email and course; for any term containing no
regex syntax character this coincides with case-insensitive substring
matching, and the empty term returns the full unfiltered student list — in
store order, hence the same set of students as `listStudents`. -/
theorem c4_literal_term_search (db : Store) (term : String)
    (h : term.data.all (fun c => !isRegexSpecial c) = true) :
    searchStudentsEndpoint db term
      = db.students.filter (fun s =>
          isSubstringCI term s.name || isSubstringCI term s.email
            || isSubstringCI term s.course)
  ∧ searchStudentsEndpoint db "" = db.students
  ∧ (searchStudentsEndpoint db "").Perm (listStudentsEndpoint db) := by
  have hlit : ∀ x : String, regexTest term x = isSubstringCI term x := by
    intro x
    unfold regexTest isSubstringCI
    rw [rtoksOf_of_no_special term h, rSearch_lit]
  have hall : ∀ x : String, regexTest "" x = true := by
    intro x
    unfold regexTest
    have hnil : rtoksOf "" = [] := rfl
    rw [hnil, rSearch_nil]
  have hempty : searchStudentsEndpoint db "" = db.students := by
    unfold searchStudentsEndpoint
    rw [List.filter_eq_self]
    intro s _
    rw [hall, hall, hall]
    rfl
  refine ⟨?_, hempty, ?_⟩
  · unfold searchStudentsEndpoint
    apply List.filter_congr
    intro s _
    rw [hlit, hlit, hlit]
  · rw [hempty]
    exact (List.perm_insertionSort studentNewerFirst db.students).symm

/-- Witness for C4 at a concrete store and the term "ali" (matching
"Alice" by name and, were she enrolled there, "Algorithms" by course). -/
theorem c4_literal_term_search_witness :
    "ali".data.all (fun c => !isRegexSpecial c) = true
  ∧ (searchStudentsEndpoint dbSearch "ali"
      = dbSearch.students.filter (fun s =>
          isSubstringCI "ali" s.name || isSubstringCI "ali" s.email
            || isSubstringCI "ali" s.course)
    ∧ searchStudentsEndpoint dbSearch "" = dbSearch.students
    ∧ (searchStudentsEndpoint dbSearch "").Perm (listStudentsEndpoint dbSearch)) :=
  ⟨by decide, c4_literal_term_search dbSearch "ali" (by decide)⟩

end SMA
